import Mathlib

/-!
Verification of the Payment Reconciliation & Inventory Allocation Engine of a
Telegram Bitcoin shop.  The definitions below are a shallow embedding of the
Python source: `DatabaseManager` methods from `src/database.py`, the payment
matcher `check_bitcoin_payment` and rate oracle `get_btc_rate` from
`src/bitcoin_utils.py`, the user-facing handlers from `src/handlers.py`, and
the expiration sweeper `cancel_expired_orders` from `src/main.py`.

Monetary amounts (Python `decimal.Decimal`) are embedded as rationals `ℚ`;
timestamps as integers (Unix seconds); SQL rows as Lean structures; tables as
association functions (for keyed rows) or lists (for append-only relations);
Python exceptions as `Except` results.
-/

namespace Shop

/-- Status column of the `orders` table: `CHECK (status IN
('pending', 'completed', 'cancelled', 'expired'))`. -/
inductive OrderStatus
  | pending
  | completed
  | cancelled
  | expired
deriving DecidableEq, Repr

/-- A row of the `orders` table (engine-relevant columns). -/
structure Order where
  userId : Int
  productId : Nat
  locationId : Nat
  priceRub : ℚ
  priceBtc : ℚ
  btcRate : ℚ
  bitcoinAddress : String
  paymentAmount : ℚ
  status : OrderStatus
  contentLink : Option String
  transactionHash : Option String
  createdAt : Int
  expiresAt : Int
  completedAt : Option Int
deriving DecidableEq, Repr

/-- A row of the `used_transactions` table: `transaction_hash VARCHAR(64)
NOT NULL UNIQUE`, `order_id`, `amount`. -/
structure UsedTransaction where
  transactionHash : String
  orderId : Nat
  amount : ℚ
deriving DecidableEq, Repr

/-- A row of the `used_links` table: `UNIQUE(location_id, link)`. -/
structure UsedLink where
  locationId : Nat
  link : String
deriving DecidableEq, Repr

/-- A row of the `locations` table (engine-relevant columns `content_links`,
`is_active`). -/
structure Location where
  contentLinks : List String
  isActive : Bool
deriving DecidableEq, Repr

/-- The database state shared by all operations: keyed `orders` and
`locations` tables, and the two append-only claim relations. -/
structure DBState where
  orders : Nat → Option Order
  usedTransactions : List UsedTransaction
  usedLinks : List UsedLink
  locations : Nat → Option Location

/-- Python's `str.strip()` on the underlying character list: drop whitespace
from both ends. -/
def stripChars (l : List Char) : List Char :=
  ((l.dropWhile Char.isWhitespace).reverse.dropWhile Char.isWhitespace).reverse

/-- Python's `str.strip()`: remove leading and trailing whitespace. -/
def pyStrip (s : String) : String :=
  ⟨stripChars s.data⟩

/-- Errors signalled by raising `ValueError` in the Python database methods. -/
inductive DBError
  | invalidInput (what : String)
  | orderNotFound
  | alreadyStatus (st : OrderStatus)
  | updateFailed
deriving DecidableEq, Repr

/-- `DatabaseManager.is_transaction_used` (src/database.py): returns `True`
for any hash that is not a string of exactly 64 characters ("considered used,
for safety"), otherwise checks the `used_transactions` table. -/
def DBState.is_transaction_used (s : DBState) (txHash : String) : Bool :=
  if txHash = "" ∨ txHash.length ≠ 64 then
    true
  else
    s.usedTransactions.any (fun r => r.transactionHash = txHash)

/-- `DatabaseManager.mark_transaction_used` (src/database.py): validates the
hash (64-char string), order id and amount, then performs
`INSERT INTO used_transactions ... ON CONFLICT (transaction_hash) DO NOTHING`. -/
def DBState.mark_transaction_used (s : DBState) (txHash : String) (orderId : Nat)
    (amount : ℚ) : Except DBError DBState :=
  if txHash = "" ∨ txHash.length ≠ 64 then
    .error (.invalidInput "transaction hash")
  else if orderId = 0 then
    .error (.invalidInput "order id")
  else if amount ≤ 0 then
    .error (.invalidInput "amount")
  else if s.usedTransactions.any (fun r => r.transactionHash = txHash) then
    .ok s
  else
    .ok { s with usedTransactions := s.usedTransactions ++ [⟨txHash, orderId, amount⟩] }

/-- `DatabaseManager.complete_order` (src/database.py): validates inputs,
fetches the order, raises if missing or not `pending`, then performs the
conditioned update `UPDATE orders SET status = 'completed', content_link,
transaction_hash, completed_at WHERE id = $1 AND status = 'pending'`. -/
def DBState.complete_order (s : DBState) (orderId : Nat) (contentLink : String)
    (transactionHash : Option String) (now : Int) : Except DBError DBState :=
  if orderId = 0 then
    .error (.invalidInput "order id")
  else if pyStrip contentLink = "" then
    .error (.invalidInput "content link")
  else
    match s.orders orderId with
    | none => .error .orderNotFound
    | some o =>
      if o.status ≠ .pending then
        .error (.alreadyStatus o.status)
      else
        let o' : Order :=
          { o with status := .completed, contentLink := some (pyStrip contentLink),
                   transactionHash := transactionHash, completedAt := some now }
        .ok { s with orders := fun i => if i = orderId then some o' else s.orders i }

/-- The stored `link` values of `used_links` rows for one location, as read by
`SELECT link FROM used_links WHERE location_id = $1`. -/
def DBState.linksFor (s : DBState) (locationId : Nat) : List String :=
  (s.usedLinks.filter (fun u => decide (u.locationId = locationId))).map UsedLink.link

/-- `DatabaseManager.get_available_link` (src/database.py): checks the
location exists, is active and has links; filters its `content_links` down to
the non-blank ones whose raw text is not among the already-used links,
stripping each survivor; picks the first; inserts `(location_id, link)` into
`used_links`, where a unique-constraint conflict is caught and turned into
`None`. -/
def DBState.get_available_link (s : DBState) (locationId : Nat) :
    Option String × DBState :=
  match s.locations locationId with
  | none => (none, s)
  | some loc =>
    if loc.isActive = false then (none, s)
    else if loc.contentLinks = [] then (none, s)
    else
      match (loc.contentLinks.filter (fun link =>
          decide (link ≠ "" ∧ pyStrip link ≠ "" ∧ link ∉ s.linksFor locationId))).map
          pyStrip with
      | [] => (none, s)
      | selected :: _ =>
        if s.usedLinks.any (fun u => decide (u.locationId = locationId ∧ u.link = selected)) then
          (none, s)
        else
          (some selected, { s with usedLinks := s.usedLinks ++ [⟨locationId, selected⟩] })

/-- Per-row effect of one `cancel_expired_orders` sweep (src/main.py): a row
selected by `status = 'pending' AND expires_at < NOW()` gets
`UPDATE orders SET status = 'expired'`; other rows are untouched. -/
def expireIfStale (now : Int) : Option Order → Option Order
  | none => none
  | some o =>
    if o.status = .pending ∧ o.expiresAt < now then
      some { o with status := .expired }
    else
      some o

/-- The per-sweep body of `cancel_expired_orders` (src/main.py), acting on one
state: see `expireIfStale` for the per-row update. -/
def DBState.cancel_expired_orders_sweep (s : DBState) (now : Int) : DBState :=
  { s with orders := fun i => expireIfStale now (s.orders i) }

/-- Outcome reported by `cancel_order_handler` (src/handlers.py) through
`callback.answer` / `edit_text`. -/
inductive CancelOutcome
  | orderNotFound
  | cannotCancel
  | cancelled
deriving DecidableEq, Repr

/-- `cancel_order_handler` (src/handlers.py): fetches the order, rejects if
missing or owned by another user, answers "cannot cancel" if the status is not
`pending`, otherwise runs `UPDATE orders SET status = 'cancelled' WHERE id = $1`. -/
def cancel_order_handler (s : DBState) (userId : Int) (orderId : Nat) :
    CancelOutcome × DBState :=
  match s.orders orderId with
  | none => (.orderNotFound, s)
  | some o =>
    if o.userId ≠ userId then (.orderNotFound, s)
    else if o.status ≠ .pending then (.cannotCancel, s)
    else
      let o' : Order := { o with status := .cancelled }
      (.cancelled, { s with orders := fun i => if i = orderId then some o' else s.orders i })

/-- C1 invariant: no `transaction_hash` value appears in more than one
`used_transactions` row. -/
def txHashesUnique (s : DBState) : Prop :=
  (s.usedTransactions.map UsedTransaction.transactionHash).Nodup

/-- One output of a transaction returned by the blockchain explorer API
(`out` entries with `addr` and `value` fields); a missing `addr` is modelled
as `""`, `value` is in satoshi. -/
structure TxOutput where
  addr : String
  value : Int
deriving DecidableEq, Repr

/-- One transaction returned by the blockchain explorer API (`txs` entries
with `hash`, `time` and `out` fields); a missing `hash` is modelled as `""`. -/
structure BlockTx where
  hash : String
  time : Int
  out : List TxOutput
deriving DecidableEq, Repr

/-- Inner output scan of `check_bitcoin_payment` (src/bitcoin_utils.py):
among a transaction's outputs, look for one with a non-empty `addr` equal to
the receiving address whose value, converted to BTC as `value / 100000000`,
lies between `min_amount` and `max_amount`. -/
def findMatchingOutput (address : String) (minAmount maxAmount : ℚ)
    (outs : List TxOutput) : Bool :=
  outs.any (fun o => decide (o.addr ≠ "" ∧ o.addr = address ∧
    minAmount ≤ (o.value : ℚ) / 100000000 ∧ (o.value : ℚ) / 100000000 ≤ maxAmount))

/-- Transaction scan of `check_bitcoin_payment` (src/bitcoin_utils.py): skip
transactions with an invalid hash, transactions with
`time <= order_timestamp - 30` (30-second clock-skew buffer), and transactions
already recorded as used; return the hash of the first remaining transaction
with an output inside the acceptance window. -/
def scanTransactions (db : DBState) (address : String) (minAmount maxAmount : ℚ)
    (orderTimestamp : Int) : List BlockTx → Option String
  | [] => none
  | tx :: rest =>
    if tx.hash = "" then
      scanTransactions db address minAmount maxAmount orderTimestamp rest
    else if tx.time ≤ orderTimestamp - 30 then
      scanTransactions db address minAmount maxAmount orderTimestamp rest
    else if db.is_transaction_used tx.hash then
      scanTransactions db address minAmount maxAmount orderTimestamp rest
    else if findMatchingOutput address minAmount maxAmount tx.out then
      some tx.hash
    else
      scanTransactions db address minAmount maxAmount orderTimestamp rest

/-- `check_bitcoin_payment` (src/bitcoin_utils.py), with the successfully
fetched explorer page passed in as `txs`: in `TEST_MODE` it immediately
reports the synthetic hash `"test_transaction_hash"`; otherwise it builds the
acceptance window `[amount - tolerance, amount + tolerance]` with
`tolerance = 0.00000001` BTC (1 satoshi), rejects amounts of at most
1 satoshi, and scans the page. -/
def check_bitcoin_payment (testMode : Bool) (db : DBState) (address : String)
    (amount : ℚ) (orderTimestamp : Int) (txs : List BlockTx) : Option String :=
  if testMode then
    some "test_transaction_hash"
  else
    let tolerance : ℚ := 1 / 100000000
    let minAmount := amount - tolerance
    let maxAmount := amount + tolerance
    if amount ≤ 1 / 100000000 then
      none
    else if txs = [] then
      none
    else
      scanTransactions db address minAmount maxAmount orderTimestamp txs

/-- Outcome reported by `check_payment_handler` (src/handlers.py) through
`callback.answer` / `edit_text`. -/
inductive CheckPaymentOutcome
  | orderNotFound
  | alreadyCompleted
  | orderExpired
  | paymentNotFound
  | transactionAlreadyUsed
  | outOfStock
  | completedNow (link : String)
  | handlerError
deriving DecidableEq, Repr

/-- `check_payment_handler` (src/handlers.py): fetch the order; short-circuit
if missing, already `completed`, or past `expires_at`; run
`check_bitcoin_payment`; on a match, re-check the replay guard, mark the
transaction used, allocate a content link and complete the order.  Exceptions
raised by the database calls hit the handler's generic `except` branch. -/
def check_payment_handler (testMode : Bool) (s : DBState) (orderId : Nat)
    (now : Int) (txs : List BlockTx) : CheckPaymentOutcome × DBState :=
  match s.orders orderId with
  | none => (.orderNotFound, s)
  | some o =>
    if o.status = .completed then (.alreadyCompleted, s)
    else if o.expiresAt < now then (.orderExpired, s)
    else
      match check_bitcoin_payment testMode s o.bitcoinAddress o.paymentAmount
          o.createdAt txs with
      | none => (.paymentNotFound, s)
      | some txHash =>
        if s.is_transaction_used txHash then (.transactionAlreadyUsed, s)
        else
          match s.mark_transaction_used txHash orderId o.paymentAmount with
          | .error _ => (.handlerError, s)
          | .ok s1 =>
            match s1.get_available_link o.locationId with
            | (none, s2) => (.outOfStock, s2)
            | (some link, s2) =>
              match s2.complete_order orderId link (some txHash) now with
              | .error _ => (.handlerError, s2)
              | .ok s3 => (.completedNow link, s3)

/-- `location_handler`'s payment-amount computation (src/handlers.py):
`extra_satoshi = random.randint(1, 300)` and
`payment_amount = price_btc + Decimal(extra_satoshi) / 100000000`. -/
def payment_amount_of (priceBtc : ℚ) (extraSatoshi : ℕ) : ℚ :=
  priceBtc + (extraSatoshi : ℚ) / 100000000

/-- One provider attempt of `get_btc_rate` (src/bitcoin_utils.py): `none`
models a request failure (non-200 status or exception), `some r` a parsed
rate, which is discarded (`continue`) unless `r > 0`.  The first valid rate
becomes the new cache entry `(rate, now)`. -/
def tryProviders (now : Int) : List (Option ℚ) → Option (ℚ × Int)
  | [] => none
  | none :: rest => tryProviders now rest
  | some r :: rest => if r ≤ 0 then tryProviders now rest else some (r, now)

/-- `get_btc_rate` (src/bitcoin_utils.py).  The cache is the module-level
`btc_rate_cache` pair `(rate, timestamp)`, `none` when never filled.  Returns
the rate, the new cache, and whether the degraded-mode fallback warning
("Используем fallback курс") was logged.  A cache entry fresher than 5 minutes
(300 s) is returned unchanged; otherwise providers are tried in order; if all
fail, a non-zero cached rate is returned, else the constant `5000000`. -/
def get_btc_rate (cache : Option (ℚ × Int)) (now : Int)
    (providers : List (Option ℚ)) : ℚ × Option (ℚ × Int) × Bool :=
  match cache with
  | some (r, ts) =>
    if now - ts < 300 then (r, cache, false)
    else
      match tryProviders now providers with
      | some (r', ts') => (r', some (r', ts'), false)
      | none => if r ≠ 0 then (r, cache, false) else (5000000, cache, true)
  | none =>
    match tryProviders now providers with
    | some (r', ts') => (r', some (r', ts'), false)
    | none => (5000000, none, true)

/-- Every rate provider fails: each attempt either errors out or yields a
non-positive rate, which `get_btc_rate` skips with a warning. -/
def allProvidersFail (providers : List (Option ℚ)) : Prop :=
  ∀ p ∈ providers, ∀ r, p = some r → r ≤ 0

/-- Reachable database states: starting from a state whose replay-guard and
used-link relations are empty (fresh `create_tables` output, with arbitrary
catalog and order rows), closed under the state-mutating engine operations. -/
inductive Reach : DBState → Prop
  | init (orders : Nat → Option Order) (locations : Nat → Option Location) :
      Reach ⟨orders, [], [], locations⟩
  | mark (s s' : DBState) (txHash : String) (orderId : Nat) (amount : ℚ) :
      Reach s → s.mark_transaction_used txHash orderId amount = .ok s' → Reach s'
  | getLink (s : DBState) (locationId : Nat) :
      Reach s → Reach (s.get_available_link locationId).2
  | complete (s s' : DBState) (orderId : Nat) (contentLink : String)
      (transactionHash : Option String) (now : Int) :
      Reach s → s.complete_order orderId contentLink transactionHash now = .ok s' →
      Reach s'
  | cancel (s : DBState) (userId : Int) (orderId : Nat) :
      Reach s → Reach (cancel_order_handler s userId orderId).2
  | sweep (s : DBState) (now : Int) :
      Reach s → Reach (s.cancel_expired_orders_sweep now)

/-- State after `n` sequential calls of `get_available_link` on one location. -/
def iterate_get_link (locationId : Nat) (s : DBState) : Nat → DBState
  | 0 => s
  | n + 1 => ((iterate_get_link locationId s n).get_available_link locationId).2

/-- Result of the `(k+1)`-th sequential `get_available_link` call (`k` calls
have already happened). -/
def nthLinkResult (s : DBState) (locationId : Nat) (k : Nat) : Option String :=
  ((iterate_get_link locationId s k).get_available_link locationId).1

/-- A database with no rows at all: orders, used links and used transactions
all empty. -/
def emptyState : DBState := ⟨fun _ => none, [], [], fun _ => none⟩

/-- A location whose `content_links` list contains the same link twice. -/
def dupLinksLocation : Location := ⟨["a", "a"], true⟩

/-- A fresh database whose only row is location 1 with duplicated links. -/
def dupLinksState : DBState :=
  ⟨fun _ => none, [], [], fun i => if i = 1 then some dupLinksLocation else none⟩

/-- A syntactically valid 64-character transaction hash. -/
def hashA : String :=
  "aaaaaaaaaaaaaaaaaaaaaaaaaaaaaaaaaaaaaaaaaaaaaaaaaaaaaaaaaaaaaaaa"

/-- A second, distinct 64-character transaction hash. -/
def hashB : String :=
  "bbbbbbbbbbbbbbbbbbbbbbbbbbbbbbbbbbbbbbbbbbbbbbbbbbbbbbbbbbbbbbbb"

/-- Explorer page with one transaction of the expected amount dated before
order creation (timestamp 900 against order timestamp 1000) and one dated
after (timestamp 1010), both paying `addr1` the amount 100137 satoshi. -/
def staleFreshTxs : List BlockTx :=
  [⟨hashA, 900, [⟨"addr1", 100137⟩]⟩, ⟨hashB, 1010, [⟨"addr1", 100137⟩]⟩]

/-- A pending order on location 1 paying 0.00100137 BTC to `addr1`, created
at timestamp 1000 and expiring at timestamp 2800. -/
def pendingOrder : Order :=
  { userId := 7, productId := 1, locationId := 1, priceRub := 5000,
    priceBtc := 1 / 1000, btcRate := 5000000, bitcoinAddress := "addr1",
    paymentAmount := 100137 / 100000000, status := .pending, contentLink := none,
    transactionHash := none, createdAt := 1000, expiresAt := 2800,
    completedAt := none }

/-- A database holding `pendingOrder` as order 1 and a single-link location 1. -/
def pendingState : DBState :=
  ⟨fun i => if i = 1 then some pendingOrder else none, [], [],
   fun i => if i = 1 then some ⟨["a"], true⟩ else none⟩

/-- `pendingState` with order 1 already completed. -/
def completedState : DBState :=
  ⟨fun i => if i = 1 then some { pendingOrder with status := .completed } else none,
   [], [], fun i => if i = 1 then some ⟨["a"], true⟩ else none⟩

/-- `pendingState` with order 1 already expired by the sweeper. -/
def expiredState : DBState :=
  ⟨fun i => if i = 1 then some { pendingOrder with status := .expired } else none,
   [], [], fun i => if i = 1 then some ⟨["a"], true⟩ else none⟩

/-- A successful `mark_transaction_used` only appends to `used_transactions`;
the other tables are untouched. -/
theorem mark_ok_preserves {s s' : DBState} {txHash : String} {orderId : Nat}
    {amount : ℚ} (heq : s.mark_transaction_used txHash orderId amount = .ok s') :
    s'.orders = s.orders ∧ s'.usedLinks = s.usedLinks ∧ s'.locations = s.locations := by
  unfold DBState.mark_transaction_used at heq
  repeat' split at heq
  all_goals cases heq
  all_goals exact ⟨rfl, rfl, rfl⟩

/-- `get_available_link` only appends to `used_links`; the other tables are
untouched. -/
theorem getLink_preserves (s : DBState) (locationId : Nat) :
    ((s.get_available_link locationId).2).orders = s.orders ∧
    ((s.get_available_link locationId).2).usedTransactions = s.usedTransactions ∧
    ((s.get_available_link locationId).2).locations = s.locations := by
  unfold DBState.get_available_link
  repeat' split
  all_goals exact ⟨rfl, rfl, rfl⟩

/-- `complete_order` can only succeed on an order whose status is `pending`. -/
theorem complete_ok_requires_pending {s s' : DBState} {orderId : Nat}
    {contentLink : String} {transactionHash : Option String} {now : Int} {o : Order}
    (hord : s.orders orderId = some o)
    (heq : s.complete_order orderId contentLink transactionHash now = .ok s') :
    o.status = .pending := by
  unfold DBState.complete_order at heq
  repeat' split at heq
  all_goals simp_all

/-- C8: every created order's `payment_amount` is the base BTC price plus a
jitter of `extra_satoshi / 100000000` with `extra_satoshi` drawn from
`randint(1, 300)`, hence strictly greater than the base price. -/
theorem c8_payment_amount_exceeds_base (priceBtc : ℚ) (extraSatoshi : ℕ)
    (h1 : 1 ≤ extraSatoshi) (h2 : extraSatoshi ≤ 300) :
    priceBtc < payment_amount_of priceBtc extraSatoshi := by
  unfold payment_amount_of
  have hpos : (0 : ℚ) < (extraSatoshi : ℚ) / 100000000 := by
    apply div_pos
    · exact_mod_cast h1
    · norm_num
  linarith

/-- Witness for C8 at the spec's example jitter 137 on base price 0.001 BTC. -/
theorem c8_witness :
    (1 : ℚ) / 1000 < payment_amount_of (1 / 1000) 137 :=
  c8_payment_amount_exceeds_base (1 / 1000) 137 (by decide) (by decide)

/-- C5: a payment check on an order whose status is already `completed`
answers "order already completed" and returns the database unchanged — so the
inventory allocator is never reached and no second content link is handed out
— and a second check behaves identically. -/
theorem c5_completed_order_idempotent (testMode : Bool) (s : DBState)
    (orderId : Nat) (o : Order) (now : Int) (txs : List BlockTx)
    (h1 : s.orders orderId = some o) (h2 : o.status = .completed) :
    check_payment_handler testMode s orderId now txs = (.alreadyCompleted, s) ∧
    check_payment_handler testMode
      (check_payment_handler testMode s orderId now txs).2 orderId now txs
      = (.alreadyCompleted, s) := by
  have h : check_payment_handler testMode s orderId now txs = (.alreadyCompleted, s) := by
    unfold check_payment_handler
    rw [h1]
    simp [h2]
  exact ⟨h, by rw [h]; exact h⟩

/-- Witness for C5 on the concrete already-completed order 1. -/
theorem c5_witness :
    check_payment_handler false completedState 1 0 [] = (.alreadyCompleted, completedState) ∧
    check_payment_handler false
      (check_payment_handler false completedState 1 0 []).2 1 0 []
      = (.alreadyCompleted, completedState) :=
  c5_completed_order_idempotent false completedState 1
    { pendingOrder with status := .completed } 0 [] rfl rfl

/-- C4: `complete_order` and the cancel handler are conditioned updates.  On
an order whose status is no longer `pending`, `complete_order` changes
nothing (its error result carries no new state) and signals the
already-processed status, and the cancel handler answers "cannot cancel"
returning the database unchanged. -/
theorem c4_conditioned_updates (s : DBState) (orderId : Nat) (o : Order)
    (h1 : s.orders orderId = some o) (h2 : o.status ≠ .pending) (h3 : orderId ≠ 0) :
    (∀ (link : String) (th : Option String) (now : Int), pyStrip link ≠ "" →
        s.complete_order orderId link th now = .error (.alreadyStatus o.status)) ∧
    cancel_order_handler s o.userId orderId = (.cannotCancel, s) := by
  constructor
  · intro link th now hlink
    unfold DBState.complete_order
    rw [h1]
    simp [h3, hlink, h2]
  · unfold cancel_order_handler
    rw [h1]
    simp [h2]

/-- Witness for C4 on the concrete already-completed order 1. -/
theorem c4_witness :
    completedState.complete_order 1 "b" none 5 = .error (.alreadyStatus .completed) ∧
    cancel_order_handler completedState 7 1 = (.cannotCancel, completedState) := by
  have h := c4_conditioned_updates completedState 1
    { pendingOrder with status := .completed } rfl (by decide) (by decide)
  exact ⟨h.1 "b" none 5 (by decide), h.2⟩

/-- C2: an order the sweeper has expired can never be completed afterwards:
any later payment-check invocation leaves the order row exactly as it was
(status `expired`), and `complete_order` can never succeed on it. -/
theorem c2_expired_order_stays_expired (testMode : Bool) (s : DBState)
    (orderId : Nat) (o : Order) (now : Int) (txs : List BlockTx)
    (h1 : s.orders orderId = some o) (h2 : o.status = .expired) :
    ((check_payment_handler testMode s orderId now txs).2).orders orderId = some o ∧
    (∀ (link : String) (th : Option String) (n2 : Int) (s' : DBState),
        s.complete_order orderId link th n2 ≠ .ok s') := by
  have hnp : o.status ≠ .pending := by rw [h2]; decide
  constructor
  · unfold check_payment_handler
    rw [h1]
    have hnc : ¬ o.status = .completed := by rw [h2]; decide
    simp only [hnc, if_false]
    split
    · exact h1
    · split
      · exact h1
      · split
        · exact h1
        · rename_i txHash hmark
          split
          · exact h1
          · rename_i s1 hok
            have hp1 : s1.orders = s.orders := (mark_ok_preserves hok).1
            split
            · rename_i s2 hglink
              have hp2 : s2.orders = s1.orders := by
                have h5 := (getLink_preserves s1 o.locationId).1
                rw [hglink] at h5
                exact h5
              show s2.orders orderId = some o
              rw [hp2, hp1]
              exact h1
            · rename_i link s2 hglink
              have hp2 : s2.orders = s1.orders := by
                have h5 := (getLink_preserves s1 o.locationId).1
                rw [hglink] at h5
                exact h5
              have hs2ord : s2.orders orderId = some o := by
                rw [hp2, hp1]; exact h1
              split
              · show s2.orders orderId = some o
                exact hs2ord
              · rename_i s3 hcomp
                exact absurd (complete_ok_requires_pending hs2ord hcomp) hnp
  · intro link th n2 s' hok
    exact hnp (complete_ok_requires_pending h1 hok)

/-- Witness for C2 on the concrete expired order 1. -/
theorem c2_witness :
    ((check_payment_handler false expiredState 1 3000 []).2).orders 1
      = some { pendingOrder with status := .expired } ∧
    (∀ (link : String) (th : Option String) (n2 : Int) (s' : DBState),
        expiredState.complete_order 1 link th n2 ≠ .ok s') :=
  c2_expired_order_stays_expired false expiredState 1
    { pendingOrder with status := .expired } 3000 [] rfl rfl

/-- If every provider attempt fails (erroring or yielding a non-positive
rate), the provider loop produces nothing. -/
theorem tryProviders_all_fail (now : Int) (providers : List (Option ℚ))
    (hfail : allProvidersFail providers) : tryProviders now providers = none := by
  induction providers with
  | nil => rfl
  | cons p rest ih =>
    have hrest : allProvidersFail rest := fun q hq => hfail q (List.mem_cons_of_mem p hq)
    cases p with
    | none => exact ih hrest
    | some r =>
      have hr : r ≤ 0 := hfail (some r) (List.mem_cons_self _ _) r rfl
      unfold tryProviders
      rw [if_pos hr]
      exact ih hrest

/-- C9: when every rate provider fails, `get_btc_rate` still returns a value
(it is a total function, so it never raises): the cached rate when a
(non-zero, hence any actually cached) rate exists, and otherwise the fixed
fallback constant `5000000` together with the degraded-mode warning flag. -/
theorem c9_rate_fallback (cache : Option (ℚ × Int)) (now : Int)
    (providers : List (Option ℚ)) (hfail : allProvidersFail providers) :
    (cache = none → get_btc_rate cache now providers = (5000000, none, true)) ∧
    (∀ (r : ℚ) (ts : Int), cache = some (r, ts) → r ≠ 0 →
        (get_btc_rate cache now providers).1 = r) := by
  have htry := tryProviders_all_fail now providers hfail
  constructor
  · intro hc
    subst hc
    unfold get_btc_rate
    rw [htry]
  · intro r ts hc hr
    subst hc
    simp only [get_btc_rate]
    by_cases hfresh : now - ts < 300
    · rw [if_pos hfresh]
    · rw [if_neg hfresh, htry]
      rw [if_pos hr]

/-- The two-element provider list "network error, then rate 0" fails
entirely. -/
theorem allFailPair : allProvidersFail [none, some 0] := by
  intro p hp r hr
  rcases List.mem_cons.mp hp with h | h
  · subst h
    exact absurd hr (by simp)
  · rcases List.mem_cons.mp h with h2 | h2
    · subst h2
      have h0 : (0 : ℚ) = r := by injection hr
      exact le_of_eq h0.symm
    · exact absurd h2 (List.not_mem_nil p)

/-- Witness for C9: two failing providers (a network error and a zero rate),
once with an empty cache and once with a cached rate of 42. -/
theorem c9_witness :
    get_btc_rate none 0 [none, some 0] = (5000000, none, true) ∧
    (get_btc_rate (some (42, 0)) 1000000 [none, some 0]).1 = 42 := by
  have h1 := c9_rate_fallback none 0 [none, some 0] allFailPair
  have h2 := c9_rate_fallback (some (42, 0)) 1000000 [none, some 0] allFailPair
  exact ⟨h1.1 rfl, h2.2 42 0 rfl (by norm_num)⟩

/-- C10: the replay guard's validation rejects every hash that is not exactly
64 characters long (reporting it as already used); the synthetic test-mode
hash `"test_transaction_hash"` has 21 characters; consequently a test-mode
payment check never completes any order and never changes the database. -/
theorem c10_test_mode_never_completes :
    (∀ (s : DBState) (h : String), h.length ≠ 64 → s.is_transaction_used h = true) ∧
    ("test_transaction_hash".length = 21) ∧
    (∀ (s : DBState) (orderId : Nat) (now : Int) (txs : List BlockTx),
        (check_payment_handler true s orderId now txs).2 = s ∧
        ∀ link, (check_payment_handler true s orderId now txs).1 ≠ .completedNow link) := by
  refine ⟨?_, by decide, ?_⟩
  · intro s h hlen
    unfold DBState.is_transaction_used
    rw [if_pos (Or.inr hlen)]
  · intro s orderId now txs
    have hused : s.is_transaction_used "test_transaction_hash" = true := by
      unfold DBState.is_transaction_used
      rw [if_pos (Or.inr (by decide))]
    unfold check_payment_handler
    split
    · exact ⟨rfl, fun link h => CheckPaymentOutcome.noConfusion h⟩
    · split
      · exact ⟨rfl, fun link h => CheckPaymentOutcome.noConfusion h⟩
      · split
        · exact ⟨rfl, fun link h => CheckPaymentOutcome.noConfusion h⟩
        · rw [show ∀ (a : String) (b : ℚ) (c : Int),
              check_bitcoin_payment true s a b c txs = some "test_transaction_hash"
              from fun a b c => rfl]
          dsimp only
          rw [if_pos hused]
          exact ⟨rfl, fun link h => CheckPaymentOutcome.noConfusion h⟩

/-- Witness for C10 on a concrete pending, unexpired order. -/
theorem c10_witness :
    emptyState.is_transaction_used "test_transaction_hash" = true ∧
    (check_payment_handler true pendingState 1 1500 []).2 = pendingState ∧
    (∀ link, (check_payment_handler true pendingState 1 1500 []).1 ≠ .completedNow link) := by
  refine ⟨c10_test_mode_never_completes.1 emptyState "test_transaction_hash" (by decide),
    (c10_test_mode_never_completes.2.2 pendingState 1 1500 []).1,
    (c10_test_mode_never_completes.2.2 pendingState 1 1500 []).2⟩

/-- C6: for a live transaction (valid hash, not stale, not replayed) with a
single output paying the receiving address, the matcher accepts exactly when
the output's BTC value `value / 100000000` lies in the window
`[amount - 1 satoshi, amount + 1 satoshi]`. -/
theorem c6_acceptance_window (db : DBState) (address : String) (amount : ℚ)
    (ts : Int) (txHash : String) (time : Int) (o : TxOutput)
    (hhash : txHash ≠ "") (htime : ts - 30 < time)
    (hunused : db.is_transaction_used txHash = false)
    (haddr : o.addr = address) (hne : o.addr ≠ "")
    (hamt : 1 / 100000000 < amount) :
    check_bitcoin_payment false db address amount ts [⟨txHash, time, [o]⟩]
        = some txHash ↔
      (amount - 1 / 100000000 ≤ (o.value : ℚ) / 100000000 ∧
       (o.value : ℚ) / 100000000 ≤ amount + 1 / 100000000) := by
  have hne' : address ≠ "" := haddr ▸ hne
  have hfind : findMatchingOutput address (amount - 1 / 100000000)
      (amount + 1 / 100000000) [o] = true ↔
      (amount - 1 / 100000000 ≤ (o.value : ℚ) / 100000000 ∧
       (o.value : ℚ) / 100000000 ≤ amount + 1 / 100000000) := by
    unfold findMatchingOutput
    simp [haddr, hne']
  simp only [check_bitcoin_payment, Bool.false_eq_true, if_false,
    if_neg (not_le.mpr hamt), if_neg (by simp : ¬ ([⟨txHash, time, [o]⟩] : List BlockTx) = [])]
  unfold scanTransactions
  rw [if_neg hhash, if_neg (not_le.mpr htime), hunused]
  simp only [Bool.false_eq_true, if_false]
  by_cases hw : (amount - 1 / 100000000 ≤ (o.value : ℚ) / 100000000 ∧
      (o.value : ℚ) / 100000000 ≤ amount + 1 / 100000000)
  · rw [if_pos (hfind.mpr hw)]
    exact iff_of_true rfl hw
  · rw [if_neg (fun hc => hw (hfind.mp hc))]
    simp only [scanTransactions]
    constructor
    · intro hcontra
      cases hcontra
    · intro hcontra
      exact absurd hcontra hw

/-- Witness for C6: the spec's example — expected 0.00100137 BTC; an output
of 100137 satoshi matches, one of 100135 satoshi does not. -/
theorem c6_witness :
    check_bitcoin_payment false emptyState "addr1" (100137 / 100000000) 1000
      [⟨hashA, 1001, [⟨"addr1", 100137⟩]⟩] = some hashA ∧
    check_bitcoin_payment false emptyState "addr1" (100137 / 100000000) 1000
      [⟨hashA, 1001, [⟨"addr1", 100135⟩]⟩] ≠ some hashA := by
  constructor
  · exact (c6_acceptance_window emptyState "addr1" (100137 / 100000000) 1000 hashA 1001
      ⟨"addr1", 100137⟩ (by decide) (by decide) (by decide) rfl (by decide)
      (by norm_num)).mpr (by norm_num)
  · intro hc
    have hwin := (c6_acceptance_window emptyState "addr1" (100137 / 100000000) 1000 hashA
      1001 ⟨"addr1", 100135⟩ (by decide) (by decide) (by decide) rfl (by decide)
      (by norm_num)).mp hc
    have : ¬ ((100137 : ℚ) / 100000000 - 1 / 100000000 ≤ ((100135 : Int) : ℚ) / 100000000) := by
      norm_num
    exact this hwin.1

/-- Any hash produced by the transaction scan belongs to a transaction of the
fetched page that is strictly newer than `order_timestamp - 30`. -/
theorem scan_some_implies {db : DBState} {address : String} {mn mx : ℚ}
    {ts : Int} {txs : List BlockTx} {h : String}
    (heq : scanTransactions db address mn mx ts txs = some h) :
    ∃ tx ∈ txs, tx.hash = h ∧ ts - 30 < tx.time := by
  induction txs with
  | nil => cases heq
  | cons tx rest ih =>
    unfold scanTransactions at heq
    split at heq
    · obtain ⟨tx', hmem, hrest⟩ := ih heq
      exact ⟨tx', List.mem_cons_of_mem tx hmem, hrest⟩
    · split at heq
      · obtain ⟨tx', hmem, hrest⟩ := ih heq
        exact ⟨tx', List.mem_cons_of_mem tx hmem, hrest⟩
      · split at heq
        · obtain ⟨tx', hmem, hrest⟩ := ih heq
          exact ⟨tx', List.mem_cons_of_mem tx hmem, hrest⟩
        · split at heq
          · rename_i hstale _ _
            injection heq with hh
            exact ⟨tx, List.mem_cons_self tx rest, hh, not_le.mp hstale⟩
          · obtain ⟨tx', hmem, hrest⟩ := ih heq
            exact ⟨tx', List.mem_cons_of_mem tx hmem, hrest⟩

/-- C7: the matcher never returns a transaction dated at or before the
order's creation time minus the 30-second clock-skew buffer: every returned
hash belongs to a fetched transaction with `time > order_timestamp - 30`. -/
theorem c7_stale_transactions_discarded (db : DBState) (address : String)
    (amount : ℚ) (ts : Int) (txs : List BlockTx) (h : String)
    (heq : check_bitcoin_payment false db address amount ts txs = some h) :
    ∃ tx ∈ txs, tx.hash = h ∧ ts - 30 < tx.time := by
  simp only [check_bitcoin_payment, Bool.false_eq_true, if_false] at heq
  split at heq
  · cases heq
  · split at heq
    · cases heq
    · exact scan_some_implies heq

/-- Witness for C7: with one transaction of the right amount dated before
order creation (timestamp 900 vs. 1000) and one dated after (1010), the
matcher accepts only the later one. -/
theorem c7_witness :
    check_bitcoin_payment false emptyState "addr1" (100137 / 100000000) 1000
      staleFreshTxs = some hashB ∧
    ∃ tx ∈ staleFreshTxs, tx.hash = hashB ∧ (1000 : Int) - 30 < tx.time := by
  have hfind : findMatchingOutput "addr1" (100137 / 100000000 - 1 / 100000000)
      (100137 / 100000000 + 1 / 100000000) [⟨"addr1", 100137⟩] = true := by
    unfold findMatchingOutput
    apply List.any_eq_true.mpr
    refine ⟨⟨"addr1", 100137⟩, List.mem_singleton.mpr rfl, ?_⟩
    rw [decide_eq_true_eq]
    exact ⟨by decide, rfl, by norm_num, by norm_num⟩
  have hres : check_bitcoin_payment false emptyState "addr1" (100137 / 100000000) 1000
      staleFreshTxs = some hashB := by
    simp only [check_bitcoin_payment, Bool.false_eq_true, if_false]
    rw [if_neg (by norm_num : ¬ (100137 / 100000000 : ℚ) ≤ 1 / 100000000)]
    rw [if_neg (by simp [staleFreshTxs] : ¬ staleFreshTxs = [])]
    unfold staleFreshTxs
    unfold scanTransactions
    dsimp only
    rw [if_neg (by decide : ¬ hashA = "")]
    rw [if_pos (by decide : (900 : Int) ≤ 1000 - 30)]
    unfold scanTransactions
    dsimp only
    rw [if_neg (by decide : ¬ hashB = "")]
    rw [if_neg (by decide : ¬ (1010 : Int) ≤ 1000 - 30)]
    rw [show emptyState.is_transaction_used hashB = false from by decide]
    simp only [Bool.false_eq_true, if_false]
    rw [if_pos hfind]
  exact ⟨hres, c7_stale_transactions_discarded emptyState "addr1" (100137 / 100000000)
    1000 staleFreshTxs hashB hres⟩

/-- A successful `mark_transaction_used` preserves hash uniqueness: the
`ON CONFLICT DO NOTHING` branch changes nothing, and the insert branch only
fires when the hash is absent. -/
theorem mark_preserves_unique {s s' : DBState} {txHash : String} {orderId : Nat}
    {amount : ℚ} (heq : s.mark_transaction_used txHash orderId amount = .ok s')
    (hu : txHashesUnique s) : txHashesUnique s' := by
  unfold DBState.mark_transaction_used at heq
  repeat' split at heq
  all_goals cases heq
  · exact hu
  · rename_i hvalid hoid hamt hany
    unfold txHashesUnique at hu ⊢
    rw [List.map_append]
    refine List.Nodup.append hu (List.nodup_singleton _) ?_
    intro a ha hb
    simp only [List.map_cons, List.map_nil, List.mem_singleton] at hb
    subst hb
    obtain ⟨r, hr, hrh⟩ := List.mem_map.mp ha
    exact hany (List.any_eq_true.mpr ⟨r, hr, decide_eq_true hrh⟩)

/-- The cancel handler never touches `used_transactions`. -/
theorem cancel_usedTransactions (s : DBState) (userId : Int) (orderId : Nat) :
    ((cancel_order_handler s userId orderId).2).usedTransactions = s.usedTransactions := by
  unfold cancel_order_handler
  repeat' split
  all_goals rfl

/-- A successful `complete_order` never touches `used_transactions`. -/
theorem complete_ok_usedTransactions {s s' : DBState} {orderId : Nat}
    {contentLink : String} {transactionHash : Option String} {now : Int}
    (heq : s.complete_order orderId contentLink transactionHash now = .ok s') :
    s'.usedTransactions = s.usedTransactions := by
  unfold DBState.complete_order at heq
  repeat' split at heq
  all_goals cases heq
  rfl

/-- C1: in every reachable database state the `used_transactions` rows have
pairwise-distinct `transaction_hash` values, and `mark_transaction_used` on a
hash that is already present leaves the state — in particular the existing
row with its `order_id` and `amount` — completely unchanged. -/
theorem c1_used_transaction_uniqueness (s : DBState) (hr : Reach s) :
    txHashesUnique s ∧
    ∀ r ∈ s.usedTransactions, ∀ (orderId : Nat) (amount : ℚ) (s' : DBState),
      s.mark_transaction_used r.transactionHash orderId amount = .ok s' →
        s' = s := by
  constructor
  · induction hr with
    | init orders locations => exact List.nodup_nil
    | mark s1 s1' txHash orderId amount hrs heq ih =>
        exact mark_preserves_unique heq ih
    | getLink s1 locationId hrs ih =>
        unfold txHashesUnique at ih ⊢
        rw [(getLink_preserves s1 locationId).2.1]
        exact ih
    | complete s1 s1' orderId contentLink transactionHash now hrs heq ih =>
        unfold txHashesUnique at ih ⊢
        rw [complete_ok_usedTransactions heq]
        exact ih
    | cancel s1 userId orderId hrs ih =>
        unfold txHashesUnique at ih ⊢
        rw [cancel_usedTransactions s1 userId orderId]
        exact ih
    | sweep s1 now hrs ih => exact ih
  · intro r hmem orderId amount s' heq
    unfold DBState.mark_transaction_used at heq
    split at heq
    · cases heq
    · split at heq
      · cases heq
      · split at heq
        · cases heq
        · split at heq
          · cases heq
            rfl
          · rename_i hany
            exact absurd (List.any_eq_true.mpr ⟨r, hmem, decide_eq_true rfl⟩) hany

/-- The reachable state holding exactly one used transaction `hashA`. -/
def reachState1 : DBState := { emptyState with usedTransactions := [⟨hashA, 1, 1⟩] }

/-- The marking step that produces `reachState1` from the initial state. -/
theorem reachState1_step :
    emptyState.mark_transaction_used hashA 1 1 = .ok reachState1 := by
  unfold DBState.mark_transaction_used
  rw [if_neg (by decide : ¬ (hashA = "" ∨ hashA.length ≠ 64))]
  rw [if_neg (by decide : ¬ (1 : Nat) = 0)]
  rw [if_neg (by norm_num : ¬ (1 : ℚ) ≤ 0)]
  rw [if_neg (by simp [emptyState] :
    ¬ (emptyState.usedTransactions.any
        (fun r => decide (r.transactionHash = hashA)) = true))]
  rfl

/-- Witness for C1: the state reached by one successful claim of `hashA`. -/
theorem c1_witness :
    txHashesUnique reachState1 ∧
    ∀ r ∈ reachState1.usedTransactions, ∀ (orderId : Nat) (amount : ℚ) (s' : DBState),
      reachState1.mark_transaction_used r.transactionHash orderId amount = .ok s' →
        s' = reachState1 :=
  c1_used_transaction_uniqueness reachState1
    (Reach.mark emptyState reachState1 hashA 1 1
      (Reach.init (fun _ => none) (fun _ => none)) reachState1_step)

/-- C3 counterexample: location 1 has exactly `N = 2` content links
(`["a", "a"]`), yet only the first call to `get_available_link` succeeds; the
second of the `N` calls already returns none, because the unique constraint
collapses duplicate links. -/
theorem c3_counterexample :
    dupLinksLocation.contentLinks.length = 2 ∧
    nthLinkResult dupLinksState 1 0 = some "a" ∧
    nthLinkResult dupLinksState 1 1 = none := by
  exact ⟨by decide, by decide, by decide⟩

/-- Strings surviving the availability filter of `get_available_link`: when
the claimed set is the first `k` links of a duplicate-free list of clean
(non-empty, stripped) links, exactly the links from position `k` on remain. -/
theorem filter_unused_eq_drop (l : List String) (hnd : l.Nodup)
    (hcl : ∀ x ∈ l, pyStrip x = x ∧ x ≠ "") (k : Nat) :
    l.filter (fun x => decide (x ≠ "" ∧ pyStrip x ≠ "" ∧ x ∉ l.take k)) = l.drop k := by
  induction l generalizing k with
  | nil => simp
  | cons a t ih =>
    cases k with
    | zero =>
      rw [List.take_zero, List.drop_zero]
      apply List.filter_eq_self.mpr
      intro x hx
      rw [decide_eq_true_eq]
      obtain ⟨hs, hne⟩ := hcl x hx
      refine ⟨hne, ?_, by simp⟩
      rw [hs]
      exact hne
    | succ k =>
      rw [List.drop_succ_cons, List.take_succ_cons, List.filter_cons]
      have hpa : (decide (a ≠ "" ∧ pyStrip a ≠ "" ∧ a ∉ (a :: t.take k))) = false := by
        simp
      rw [hpa]
      simp only [Bool.false_eq_true, if_false]
      have hnd' : t.Nodup := (List.nodup_cons.mp hnd).2
      have hna : a ∉ t := (List.nodup_cons.mp hnd).1
      have hcl' : ∀ x ∈ t, pyStrip x = x ∧ x ≠ "" :=
        fun x hx => hcl x (List.mem_cons_of_mem a hx)
      have hcg : ∀ x ∈ t,
          (decide (x ≠ "" ∧ pyStrip x ≠ "" ∧ x ∉ (a :: t.take k)))
            = (decide (x ≠ "" ∧ pyStrip x ≠ "" ∧ x ∉ t.take k)) := by
        intro x hx
        have hxa : x ≠ a := fun h => hna (h ▸ hx)
        simp [List.mem_cons, hxa]
      rw [List.filter_congr hcg]
      exact ih hnd' hcl' k

/-- Membership in the per-location claimed-link list. -/
theorem mem_linksFor {s : DBState} {locationId : Nat} {x : String} :
    x ∈ s.linksFor locationId ↔
      ∃ u ∈ s.usedLinks, u.locationId = locationId ∧ u.link = x := by
  unfold DBState.linksFor
  constructor
  · intro hx
    obtain ⟨u, hu, hux⟩ := List.mem_map.mp hx
    obtain ⟨hmem, hloc⟩ := List.mem_filter.mp hu
    exact ⟨u, hmem, decide_eq_true_eq.mp hloc, hux⟩
  · intro ⟨u, hmem, hloc, hux⟩
    exact List.mem_map.mpr ⟨u, List.mem_filter.mpr ⟨hmem, decide_eq_true hloc⟩, hux⟩

/-- Appending a fresh claim row extends the per-location claimed-link list. -/
theorem linksFor_append_self (s : DBState) (locationId : Nat) (x : String) :
    ({ s with usedLinks := s.usedLinks ++ [⟨locationId, x⟩] } : DBState).linksFor
        locationId = s.linksFor locationId ++ [x] := by
  unfold DBState.linksFor
  rw [List.filter_append, List.map_append]
  simp

/-- One `get_available_link` call on a clean location (duplicate-free,
non-blank, pre-stripped links) whose first `k` links are claimed: the call
hands out link `k` and records it. -/
theorem get_link_step_lt (s : DBState) (locationId : Nat) (loc : Location)
    (hloc : s.locations locationId = some loc) (hact : loc.isActive = true)
    (hcl : ∀ x ∈ loc.contentLinks, pyStrip x = x ∧ x ≠ "")
    (hnd : loc.contentLinks.Nodup) (k : Nat) (hk : k < loc.contentLinks.length)
    (hused : s.linksFor locationId = loc.contentLinks.take k) :
    s.get_available_link locationId =
      (some (loc.contentLinks.get ⟨k, hk⟩),
       { s with usedLinks :=
          s.usedLinks ++ [⟨locationId, loc.contentLinks.get ⟨k, hk⟩⟩] }) := by
  have hdrop : loc.contentLinks.drop k
      = loc.contentLinks.get ⟨k, hk⟩ :: loc.contentLinks.drop (k + 1) := by
    rw [List.get_eq_getElem]
    exact List.drop_eq_getElem_cons hk
  have hnomem : loc.contentLinks.get ⟨k, hk⟩ ∉ s.linksFor locationId := by
    rw [hused]
    intro hmem
    have hsplit := List.take_append_drop k loc.contentLinks
    rw [← hsplit] at hnd
    obtain ⟨hnd1, hnd2, hdisj⟩ := List.nodup_append.mp hnd
    refine hdisj hmem ?_
    rw [hdrop]
    exact List.mem_cons_self _ _
  have hany : (s.usedLinks.any (fun u =>
      decide (u.locationId = locationId ∧ u.link = loc.contentLinks.get ⟨k, hk⟩)))
        = false := by
    rw [← Bool.not_eq_true]
    intro hc
    obtain ⟨u, hu, hp⟩ := List.any_eq_true.mp hc
    obtain ⟨hp1, hp2⟩ := decide_eq_true_eq.mp hp
    exact hnomem (mem_linksFor.mpr ⟨u, hu, hp1, hp2⟩)
  have hmap : (loc.contentLinks.drop k).map pyStrip = loc.contentLinks.drop k := by
    have hid : ∀ x ∈ loc.contentLinks.drop k, pyStrip x = x :=
      fun x hx => (hcl x (List.mem_of_mem_drop hx)).1
    calc (loc.contentLinks.drop k).map pyStrip
        = (loc.contentLinks.drop k).map id := List.map_congr_left hid
      _ = loc.contentLinks.drop k := List.map_id _
  unfold DBState.get_available_link
  rw [hloc]
  dsimp only
  rw [hact]
  rw [if_neg (by decide : ¬ (true = false))]
  rw [if_neg (List.ne_nil_of_length_pos (Nat.lt_of_le_of_lt (Nat.zero_le k) hk))]
  rw [hused, filter_unused_eq_drop loc.contentLinks hnd hcl k, hmap, hdrop]
  dsimp only
  rw [hany]
  simp only [Bool.false_eq_true, if_false]

/-- One `get_available_link` call on a clean location all of whose links are
claimed: the call returns none and leaves the state unchanged. -/
theorem get_link_step_ge (s : DBState) (locationId : Nat) (loc : Location)
    (hloc : s.locations locationId = some loc) (hact : loc.isActive = true)
    (hcl : ∀ x ∈ loc.contentLinks, pyStrip x = x ∧ x ≠ "")
    (hnd : loc.contentLinks.Nodup)
    (hused : s.linksFor locationId = loc.contentLinks) :
    s.get_available_link locationId = (none, s) := by
  unfold DBState.get_available_link
  rw [hloc]
  dsimp only
  rw [hact]
  rw [if_neg (by decide : ¬ (true = false))]
  by_cases hnil : loc.contentLinks = []
  · rw [if_pos hnil]
  · rw [if_neg hnil]
    have hfil : loc.contentLinks.filter (fun x =>
        decide (x ≠ "" ∧ pyStrip x ≠ "" ∧ x ∉ s.linksFor locationId)) = [] := by
      apply List.filter_eq_nil.mpr
      intro x hx
      rw [hused]
      simp [hx]
    rw [hfil]
    rfl

/-- Running `k` sequential calls on a clean location that starts with no
claimed links keeps the catalog unchanged and claims exactly the first `k`
links, in order (`take` saturates once the location is exhausted). -/
theorem iterate_get_link_invariant (s : DBState) (locationId : Nat) (loc : Location)
    (hloc : s.locations locationId = some loc) (hact : loc.isActive = true)
    (hcl : ∀ x ∈ loc.contentLinks, pyStrip x = x ∧ x ≠ "")
    (hnd : loc.contentLinks.Nodup)
    (hinit : s.linksFor locationId = []) (k : Nat) :
    (iterate_get_link locationId s k).locations locationId = some loc ∧
    (iterate_get_link locationId s k).linksFor locationId
      = loc.contentLinks.take k := by
  induction k with
  | zero =>
    refine ⟨hloc, ?_⟩
    rw [List.take_zero]
    exact hinit
  | succ n ih =>
    obtain ⟨ihl, ihu⟩ := ih
    show ((iterate_get_link locationId s n).get_available_link locationId).2.locations
        locationId = some loc ∧
      ((iterate_get_link locationId s n).get_available_link locationId).2.linksFor
        locationId = loc.contentLinks.take (n + 1)
    by_cases hn : n < loc.contentLinks.length
    · rw [get_link_step_lt (iterate_get_link locationId s n) locationId loc ihl hact
        hcl hnd n hn ihu]
      refine ⟨ihl, ?_⟩
      rw [linksFor_append_self, ihu, List.get_eq_getElem, List.take_concat_get']
    · push_neg at hn
      rw [get_link_step_ge (iterate_get_link locationId s n) locationId loc ihl hact
        hcl hnd (by rw [ihu]; exact List.take_of_length_le hn)]
      refine ⟨ihl, ?_⟩
      rw [ihu, List.take_of_length_le hn, List.take_of_length_le (Nat.le_succ_of_le hn)]

/-- C3 (amended): on a location whose content links are pairwise distinct,
non-empty and already stripped, and whose claimed-link set starts empty,
sequential `get_available_link` calls hand out exactly the `N` links in list
order — the first `N` calls succeed, every call from the `(N+1)`-th on
returns none, and no two successful calls return the same link. -/
theorem c3_allocator_exactly_once (s : DBState) (locationId : Nat) (loc : Location)
    (hloc : s.locations locationId = some loc) (hact : loc.isActive = true)
    (hcl : ∀ x ∈ loc.contentLinks, pyStrip x = x ∧ x ≠ "")
    (hnd : loc.contentLinks.Nodup)
    (hinit : s.linksFor locationId = []) :
    (∀ (k : Nat) (hk : k < loc.contentLinks.length),
        nthLinkResult s locationId k = some (loc.contentLinks.get ⟨k, hk⟩)) ∧
    (∀ (k : Nat), loc.contentLinks.length ≤ k →
        nthLinkResult s locationId k = none) ∧
    (∀ (k1 k2 : Nat) (hk1 : k1 < loc.contentLinks.length)
        (hk2 : k2 < loc.contentLinks.length), k1 ≠ k2 →
        nthLinkResult s locationId k1 ≠ nthLinkResult s locationId k2) := by
  have hmain := iterate_get_link_invariant s locationId loc hloc hact hcl hnd hinit
  have hres : ∀ (k : Nat) (hk : k < loc.contentLinks.length),
      nthLinkResult s locationId k = some (loc.contentLinks.get ⟨k, hk⟩) := by
    intro k hk
    obtain ⟨hl, hu⟩ := hmain k
    unfold nthLinkResult
    rw [get_link_step_lt _ locationId loc hl hact hcl hnd k hk hu]
  refine ⟨hres, ?_, ?_⟩
  · intro k hk
    obtain ⟨hl, hu⟩ := hmain k
    unfold nthLinkResult
    rw [get_link_step_ge _ locationId loc hl hact hcl hnd
      (by rw [hu]; exact List.take_of_length_le hk)]
  · intro k1 k2 hk1 hk2 hne heq
    rw [hres k1 hk1, hres k2 hk2] at heq
    injection heq with heq2
    have hfin : (⟨k1, hk1⟩ : Fin loc.contentLinks.length) = ⟨k2, hk2⟩ :=
      (List.Nodup.get_inj_iff hnd).mp heq2
    rw [Fin.mk.injEq] at hfin
    exact hne hfin

/-- A fresh database whose only row is location 1 with two distinct clean
links. -/
def cleanState : DBState :=
  ⟨fun _ => none, [], [], fun i => if i = 1 then some ⟨["a", "b"], true⟩ else none⟩

/-- Witness for the amended C3: the two-link location hands out "a" then "b",
and the third call returns none. -/
theorem c3_witness :
    nthLinkResult cleanState 1 0 = some "a" ∧
    nthLinkResult cleanState 1 1 = some "b" ∧
    nthLinkResult cleanState 1 2 = none := by
  have h := c3_allocator_exactly_once cleanState 1 ⟨["a", "b"], true⟩ rfl rfl
    (by decide) (by decide) rfl
  exact ⟨h.1 0 (by decide), h.1 1 (by decide), h.2.1 2 (by decide)⟩

end Shop
